import Mathlib

/-!
# Verification of the cfd_playground geometry pipeline

Shallow embedding of `src/geometry/build_and_mesh.py` (the parametric CSG
geometry compiler, boundary classifier and preview tessellator) and of the
validation step of `src/test_cube/test_cube.py`.

Exact decimal quantities from the scripts are embedded as rationals (`ℚ`);
the real-valued tessellation and error formulas are embedded over `ℝ`.
-/

namespace CfdPlayground

/-! ## Chamber parameters (`params` dict, build_and_mesh.py lines 12-17) -/

/-- The user-tunable chamber parameters (all lengths in mm). -/
structure ChamberParams where
  lx : ℚ
  ly : ℚ
  lz : ℚ
  tube_id : ℚ
  tube_len : ℚ
  mesh_x : ℚ
  mesh_thk : ℚ
  out_id : ℚ
  out_depth : ℚ
deriving DecidableEq, Repr

/-- The default parameter values of the `params` dict. -/
def defaultParams : ChamberParams :=
  { lx := 30, ly := 20, lz := 20
    tube_id := 3.175, tube_len := 18
    mesh_x := 10, mesh_thk := 0.11
    out_id := 3.175, out_depth := 2.0 }

/-! ## The emitted geometry script (`geo_template`, lines 24-46)

The f-string template emits a fixed sequence of symbolic CSG instructions;
we embed each line of the template as one instruction.  An axis-aligned
bounding box is given by its two corner points, as in gmsh's
`Surface In BoundingBox{xmin,ymin,zmin, xmax,ymax,zmax}`. -/

/-- Axis-aligned bounding box `{xmin,ymin,zmin, xmax,ymax,zmax}`. -/
structure BBox where
  xmin : ℚ
  ymin : ℚ
  zmin : ℚ
  xmax : ℚ
  ymax : ℚ
  zmax : ℚ
deriving DecidableEq, Repr

/-- A physical-surface selector: either `Surface In BoundingBox{...}` or the
wildcard `Surface "*"`. -/
inductive SurfaceSel where
  | inBBox (b : BBox)
  | allSurfaces
deriving DecidableEq, Repr

/-- One symbolic instruction of the emitted `.geo` script. -/
inductive GeoInstr where
  /-- Instruction `Box(tag) = {x,y,z, dx,dy,dz}`. -/
  | box (tag : ℕ) (x y z dx dy dz : ℚ)
  /-- Instruction `Cylinder(tag) = {x,y,z, ax,ay,az, r}`. -/
  | cylinder (tag : ℕ) (x y z ax ay az r : ℚ)
  /-- Instruction `BooleanDifference{ Volume{targets}; Delete; }{ Volume{tools}; Delete; }`. -/
  | booleanDifference (targets tools : List ℕ)
  /-- Instruction `BooleanFuse{ Volume{targets}; Delete; }{ Volume{tools}; Delete; }`. -/
  | booleanFuse (targets tools : List ℕ)
  /-- Instruction `Physical Volume("name") = {tags}`. -/
  | physicalVolume (nm : String) (tags : List ℕ)
  /-- Instruction `Physical Surface("name") = <selector>`. -/
  | physicalSurface (nm : String) (sel : SurfaceSel)
deriving DecidableEq, Repr

/-- The inlet selector box `Surface In BoundingBox{3.9,9.9,20, 4.1,10.1,20.1}` (line 38). -/
def inletBB : BBox := ⟨3.9, 9.9, 20, 4.1, 10.1, 20.1⟩

/-- The outlet selector box `Surface In BoundingBox{25.9,9.9,17.9, 26.1,10.1,20.1}` (line 39). -/
def outletBB : BBox := ⟨25.9, 9.9, 17.9, 26.1, 10.1, 20.1⟩

/-- The mesh selector box `Surface In
BoundingBox{mesh_x-0.06,-0.1,-0.1, mesh_x+0.06,ly+0.1,lz+0.1}` (lines 40-41). -/
def meshBB (p : ChamberParams) : BBox :=
  ⟨p.mesh_x - 0.06, -0.1, -0.1, p.mesh_x + 0.06, p.ly + 0.1, p.lz + 0.1⟩

/-- The boundary classifier: the four `Physical Surface` taggings of the
template, in emission order (lines 38-42). -/
def classify (p : ChamberParams) : List (String × SurfaceSel) :=
  [ ("inlet", .inBBox inletBB)
  , ("outlet", .inBBox outletBB)
  , ("mesh", .inBBox (meshBB p))
  , ("walls", .allSurfaces) ]

/-- The geometry compiler: the instruction sequence emitted by
`geo_template` for parameters `p` (lines 24-42; the trailing mesh-size
directives carry no geometry and are not modelled). -/
def geo_template (p : ChamberParams) : List GeoInstr :=
  [ .box 1 0 0 0 p.lx p.ly p.lz
  , .cylinder 2 4 10 2 0 0 p.tube_len (p.tube_id / 2)
  , .cylinder 3 26 10 p.lz 0 0 (-p.out_depth) (p.out_id / 2)
  , .box 4 (p.mesh_x - p.mesh_thk / 2) 0 0 p.mesh_thk p.ly p.lz
  , .booleanDifference [1] [2, 3]
  , .booleanFuse [1] [4]
  , .physicalVolume "fluid" [1]
  ] ++ (classify p).map (fun r => .physicalSurface r.1 r.2)

/-! ## Instruction shapes (for structural claims) -/

/-- The constructor shape of an instruction, forgetting its numeric data. -/
inductive InstrKind where
  | box
  | cylinder
  | difference
  | fuse
  | physVolume
  | physSurface
deriving DecidableEq, Repr

/-- Shape of one instruction. -/
def instrKind : GeoInstr → InstrKind
  | .box .. => .box
  | .cylinder .. => .cylinder
  | .booleanDifference .. => .difference
  | .booleanFuse .. => .fuse
  | .physicalVolume .. => .physVolume
  | .physicalSurface .. => .physSurface

/-! ## Handle liveness (`Delete` semantics of the boolean operations)

In the emitted script every boolean operation consumes (`Delete`) its operand
volumes and produces a new resulting volume.  gmsh's OpenCASCADE kernel gives
the resulting volume the tag of the (single) target volume, which is why the
script can keep addressing the running solid as `Volume{1}`.  We check
liveness over the sequence: a live set of (tag, generation) handles; creating
a primitive binds a fresh handle to its tag; a boolean operation requires all
operand tags to be live, invalidates those handles, and binds a fresh handle
(a new generation) to the target's tag; a physical-volume tagging requires
its tags to be live.  The check fails iff some instruction references a tag
whose handle has been consumed (or never existed). -/

/-- Liveness state: the tags currently bound to a live handle, each with the
generation of that handle, plus the next fresh generation. -/
structure LiveState where
  live : List (ℕ × ℕ)
  nextGen : ℕ
deriving DecidableEq, Repr

/-- All given tags are bound to live handles. -/
def tagsLive (s : LiveState) (tags : List ℕ) : Bool :=
  tags.all (fun t => s.live.any (fun h => h.1 = t))

/-- Remove the handles bound to the given tags. -/
def consume (s : LiveState) (tags : List ℕ) : LiveState :=
  { s with live := s.live.filter (fun h => ¬ tags.contains h.1) }

/-- Bind a fresh handle (new generation) to a tag. -/
def bind (s : LiveState) (t : ℕ) : LiveState :=
  { live := (t, s.nextGen) :: s.live, nextGen := s.nextGen + 1 }

/-- One step of the liveness check: `none` means a consumed (or unknown)
handle was referenced. -/
def liveStep (s : LiveState) : GeoInstr → Option LiveState
  | .box tag _ _ _ _ _ _ => some (bind s tag)
  | .cylinder tag _ _ _ _ _ _ _ => some (bind s tag)
  | .booleanDifference targets tools =>
      if tagsLive s (targets ++ tools) then
        some (bind (consume s (targets ++ tools)) (targets.headD 0))
      else none
  | .booleanFuse targets tools =>
      if tagsLive s (targets ++ tools) then
        some (bind (consume s (targets ++ tools)) (targets.headD 0))
      else none
  | .physicalVolume _ tags => if tagsLive s tags then some s else none
  | .physicalSurface _ _ => some s

/-- The liveness check over a whole instruction sequence. -/
def livenessOk (instrs : List GeoInstr) : Bool :=
  (instrs.foldlM liveStep ⟨[], 0⟩).isSome

/-! ## Plate tessellation (`plate` / `faces`, lines 95-99)

Vertices are points of `ℚ × ℚ × ℚ`; a face is the ordered list of its
corner vertices. -/

/-- The eight corner vertices of the plate box (lines 96-97). -/
def plateCorners (mx th ly lz : ℚ) : List (ℚ × ℚ × ℚ) :=
  [ (mx - th/2, 0, 0), (mx + th/2, 0, 0), (mx + th/2, ly, 0), (mx - th/2, ly, 0)
  , (mx - th/2, 0, lz), (mx + th/2, 0, lz), (mx + th/2, ly, lz), (mx - th/2, ly, lz) ]

/-- The two faces emitted for the plate preview: vertex indices
`[0,1,2,3]` and `[4,5,6,7]` of `plateCorners` (lines 98-99). -/
def plateFaces (mx th ly lz : ℚ) : List (List (ℚ × ℚ × ℚ)) :=
  let plate := plateCorners mx th ly lz
  [ [plate.getD 0 0, plate.getD 1 0, plate.getD 2 0, plate.getD 3 0]
  , [plate.getD 4 0, plate.getD 5 0, plate.getD 6 0, plate.getD 7 0] ]

/-- Membership of a point in a bounding box (inclusive, as gmsh's
`Surface In BoundingBox` selection is inclusive of the box boundary). -/
def BBox.contains (b : BBox) (q : ℚ × ℚ × ℚ) : Bool :=
  b.xmin ≤ q.1 ∧ q.1 ≤ b.xmax ∧ b.ymin ≤ q.2.1 ∧ q.2.1 ≤ b.ymax ∧
    b.zmin ≤ q.2.2 ∧ q.2.2 ≤ b.zmax

/-- Strictly positive volume of a bounding box. -/
def BBox.posVol (b : BBox) : Bool :=
  b.xmin < b.xmax ∧ b.ymin < b.ymax ∧ b.zmin < b.zmax

/-- Whether a surface selector is a bounding box of strictly positive
volume (the wildcard selector has no bounding box). -/
def SurfaceSel.hasPosBBox : SurfaceSel → Bool
  | .inBBox b => b.posVol
  | .allSurfaces => false

end CfdPlayground

namespace CfdPlayground

/-! ## The mesh-region classification slab (C4) -/

/-- The slab `b` meets the plane `x = c` (in its x-extent). -/
def slabCoversPlane (b : BBox) (c : ℚ) : Bool :=
  b.xmin ≤ c ∧ c ≤ b.xmax

/-- The mesh-region bounding box contains both plate face planes
`x = mesh_x - mesh_thk/2` and `x = mesh_x + mesh_thk/2` (the property
asserted by the specification). -/
def meshSlabCoversPlate (p : ChamberParams) : Bool :=
  slabCoversPlane (meshBB p) (p.mesh_x - p.mesh_thk / 2) &&
    slabCoversPlane (meshBB p) (p.mesh_x + p.mesh_thk / 2)

/-! ## Preview tessellation: vectors and the cylinder frame (lines 56-66) -/

/-- A 3-component vector over coordinate type `a`. -/
structure Vec3 (α : Type) where
  x : α
  y : α
  z : α

/-- Componentwise cross product, as computed by `np.cross`. -/
def cross {α : Type} [Mul α] [Sub α] (a b : Vec3 α) : Vec3 α :=
  ⟨a.y * b.z - a.z * b.y, a.z * b.x - a.x * b.z, a.x * b.y - a.y * b.x⟩

/-- Dot product. -/
def dot {α : Type} [Mul α] [Add α] (a b : Vec3 α) : α :=
  a.x * b.x + a.y * b.y + a.z * b.z

/-- Squared Euclidean norm. -/
def normSq {α : Type} [Mul α] [Add α] (a : Vec3 α) : α := dot a a

/-- Division of a vector by a scalar, componentwise (numpy `v / s`). -/
def vdiv {α : Type} [Div α] (a : Vec3 α) (s : α) : Vec3 α :=
  ⟨a.x / s, a.y / s, a.z / s⟩

/-- Scalar multiple of a vector. -/
def smul {α : Type} [Mul α] (s : α) (a : Vec3 α) : Vec3 α :=
  ⟨s * a.x, s * a.y, s * a.z⟩

/-- Componentwise vector sum. -/
def vadd {α : Type} [Add α] (a b : Vec3 α) : Vec3 α :=
  ⟨a.x + b.x, a.y + b.y, a.z + b.z⟩

/-- Euclidean norm (`np.linalg.norm`) over the reals. -/
noncomputable def vnorm (a : Vec3 ℝ) : ℝ := Real.sqrt (normSq a)

/-- The in-plane reference vector of the cylinder tessellation frame
(line 60): world-up crossed with the normalized axis when the axis is not
nearly parallel to world-up (`abs(z[2]) < 0.99`), a secondary world axis
crossed with it otherwise. -/
noncomputable def perpRef (z : Vec3 ℝ) : Vec3 ℝ :=
  if |z.z| < 0.99 then cross ⟨0, 0, 1⟩ z else cross ⟨0, 1, 0⟩ z

/-- The full tessellation frame of `cyl_faces` (lines 58-62): the normalized
axis `z`, the normalized in-plane vector `x`, and `y = np.cross(z, x)`,
returned as `(x, y, z)`. -/
noncomputable def cylFrame (vec : Vec3 ℝ) : Vec3 ℝ × Vec3 ℝ × Vec3 ℝ :=
  let z := vdiv vec (vnorm vec)
  let x := vdiv (perpRef z) (vnorm (perpRef z))
  (x, cross z x, z)

/-- Modelled from the claim's wording, for comparison with `perpRef`: the
nearly-parallel test is `|axis dot up| > 0.99` on the normalized axis, the
secondary world axis is used when it holds and world-up otherwise. -/
noncomputable def claimRefVec (z : Vec3 ℝ) : Vec3 ℝ :=
  if 0.99 < |dot z ⟨0, 0, 1⟩| then cross ⟨0, 1, 0⟩ z else cross ⟨0, 0, 1⟩ z

/-! ## Non-finite value tracking for the preview tessellator

The preview code divides by `np.linalg.norm(vec)` with no zero guard; for the
zero axis numpy float semantics produce non-finite values (`0/0 = NaN`) that
silently propagate into the returned vertex coordinates instead of raising.
We track this with a value type that is either a finite real or non-finite
(NaN and infinity collapsed into one absorbing element; in the traces reached
here every non-finite value is a NaN.  Overflow of finite arithmetic is not
modelled). -/

/-- A float value: a finite real, or non-finite (NaN). -/
inductive FVal where
  | num (val : ℝ)
  | nonfin

instance : Add FVal :=
  ⟨fun a b => match a, b with
    | .num u, .num v => .num (u + v)
    | _, _ => .nonfin⟩

instance : Mul FVal :=
  ⟨fun a b => match a, b with
    | .num u, .num v => .num (u * v)
    | _, _ => .nonfin⟩

instance : Sub FVal :=
  ⟨fun a b => match a, b with
    | .num u, .num v => .num (u - v)
    | _, _ => .nonfin⟩

/-- Division: division by zero is non-finite (`0/0` is NaN; a non-zero
numerator would give an infinity, equally non-finite). -/
noncomputable instance : Div FVal :=
  ⟨fun a b => match a, b with
    | .num u, .num v => if v = 0 then .nonfin else .num (u / v)
    | _, _ => .nonfin⟩

/-- Square root (`np.sqrt`); NaN on negative input. -/
noncomputable def fsqrt : FVal → FVal
  | .num v => if v < 0 then .nonfin else .num (Real.sqrt v)
  | .nonfin => .nonfin

/-- Cosine (`np.cos`). -/
noncomputable def fcos : FVal → FVal
  | .num v => .num (Real.cos v)
  | .nonfin => .nonfin

/-- Sine (`np.sin`). -/
noncomputable def fsin : FVal → FVal
  | .num v => .num (Real.sin v)
  | .nonfin => .nonfin

/-- Absolute value (`abs`). -/
noncomputable def fabs : FVal → FVal
  | .num v => .num |v|
  | .nonfin => .nonfin

/-- Strict `<` comparison as a boolean; every comparison against NaN is
false, as in IEEE semantics. -/
noncomputable def fltB : FVal → FVal → Bool
  | .num u, .num v => decide (u < v)
  | _, _ => false

/-- Whether a value is finite. -/
def isFin : FVal → Bool
  | .num _ => true
  | .nonfin => false

/-- Norm of a float vector: `np.linalg.norm` = sqrt of the sum of squares. -/
noncomputable def fnorm (a : Vec3 FVal) : FVal := fsqrt (normSq a)

/-! ## The cylinder tessellator `cyl_faces` (lines 56-66), one definition
per line of the source -/

/-- Line 58: `z = vec/np.linalg.norm(vec)`. -/
noncomputable def cylZ (vec : Vec3 FVal) : Vec3 FVal := vdiv vec (fnorm vec)

/-- Line 60: `x = np.cross([0,0,1], z) if abs(z[2])<0.99 else
np.cross([0,1,0], z)`. -/
noncomputable def cylX0 (z : Vec3 FVal) : Vec3 FVal :=
  if fltB (fabs z.z) (.num 0.99) then cross ⟨.num 0, .num 0, .num 1⟩ z
  else cross ⟨.num 0, .num 1, .num 0⟩ z

/-- Line 61: `x /= np.linalg.norm(x)`. -/
noncomputable def cylX (z : Vec3 FVal) : Vec3 FVal :=
  vdiv (cylX0 z) (fnorm (cylX0 z))

/-- Line 62: `y = np.cross(z, x)`. -/
noncomputable def cylY (z : Vec3 FVal) : Vec3 FVal := cross z (cylX z)

/-- Lines 63-64: base-ring vertex `i`,
`c0[i] = base + r*(cos(t_i)*x + sin(t_i)*y)` with `t_i = 2*pi*i/n`
(`np.linspace(0, 2*pi, n, endpoint=False)`). -/
noncomputable def cylC0 (base vec : Vec3 FVal) (r : FVal) (n i : ℕ) : Vec3 FVal :=
  vadd base (smul r
    (vadd (smul (fcos (.num (2 * Real.pi * i / n))) (cylX (cylZ vec)))
          (smul (fsin (.num (2 * Real.pi * i / n))) (cylY (cylZ vec)))))

/-- Line 65: top-ring vertex `i`, `c1 = c0 + vec`. -/
noncomputable def cylC1 (base vec : Vec3 FVal) (r : FVal) (n i : ℕ) : Vec3 FVal :=
  vadd (cylC0 base vec r n i) vec

/-- Line 66: the returned side faces,
`[[c0[i], c0[(i+1)%n], c1[(i+1)%n], c1[i]] for i in range(n)]`. -/
noncomputable def cyl_faces (base vec : Vec3 FVal) (r : FVal) (n : ℕ) :
    List (List (Vec3 FVal)) :=
  (List.range n).map (fun i =>
    [ cylC0 base vec r n i, cylC0 base vec r n ((i + 1) % n)
    , cylC1 base vec r n ((i + 1) % n), cylC1 base vec r n i ])

/-- Embedding of an (ideal, finite) real vector into float values. -/
def vmap (a : Vec3 ℝ) : Vec3 FVal := ⟨.num a.x, .num a.y, .num a.z⟩

/-- Every coordinate of every vertex of every face is finite. -/
def facesFinite (fs : List (List (Vec3 FVal))) : Bool :=
  fs.all (fun f => f.all (fun p => isFin p.x && isFin p.y && isFin p.z))

/-- Every coordinate of every vertex of every face is non-finite. -/
def facesAllNonfin (fs : List (List (Vec3 FVal))) : Bool :=
  fs.all (fun f => f.all (fun p => !isFin p.x && !isFin p.y && !isFin p.z))

/-! ## Analytic-comparison validation (test_cube.py, lines 243-248) -/

/-- L2 norm of a sample array (`np.linalg.norm`). -/
noncomputable def l2norm (u : List ℝ) : ℝ :=
  Real.sqrt ((u.map (fun v => v ^ 2)).sum)

/-- Maximum of a sample array (`u_num.max()`; numpy raises on an empty
array, whose value here is immaterial). -/
noncomputable def listMax : List ℝ → ℝ
  | [] => 0
  | a :: t => t.foldl max a

/-- Line 245: `u_analytic = u_max * (1 - (x/5)**2)` with
`u_max = u_num.max()`. -/
noncomputable def u_analytic (x u_num : List ℝ) : List ℝ :=
  x.map (fun xi => listMax u_num * (1 - (xi / 5) ^ 2))

/-- Line 246: `err = norm(u_num - u_analytic) / norm(u_analytic)`. -/
noncomputable def relErr (x u_num : List ℝ) : ℝ :=
  l2norm (List.zipWith (fun a b => a - b) u_num (u_analytic x u_num)) /
    l2norm (u_analytic x u_num)

/-- Line 248: the assertion gate
`assert err < 0.03, "Velocity deviates >3% from Poiseuille"`, modelled as
raising (`Except.error` with the assertion message) exactly when the
asserted condition fails, and completing (`Except.ok`) otherwise. -/
noncomputable def velocityCheck (err : ℝ) : Except String Unit :=
  if err < 0.03 then .ok () else .error "Velocity deviates >3% from Poiseuille"

/-! ## Structural and liveness theorems about the emitted script -/

/-- C1: For every `ChamberParams` value the geometry compiler emits exactly
one Box (the chamber envelope), then two Cylinders (inlet, then outlet),
then one additional Box (the mesh plate), in that fixed order, followed by
exactly one Difference and then exactly one Union, in that order,
independent of the parameter values. -/
theorem geo_template_instr_order (p : ChamberParams) :
    (geo_template p).map instrKind =
      [.box, .cylinder, .cylinder, .box, .difference, .fuse,
       .physVolume, .physSurface, .physSurface, .physSurface, .physSurface] := rfl

/-- Sanity check: the liveness check does reject a sequence that references
a volume handle after a boolean operation consumed it. -/
theorem livenessOk_rejects_consumed_reference :
    livenessOk
      [ .box 1 0 0 0 1 1 1, .box 2 0 0 0 1 1 1
      , .booleanDifference [1] [2], .physicalVolume "fluid" [2] ] = false := rfl

/-- C3: In the emitted instruction sequence every boolean operation consumes
and invalidates its operand handles and produces a new resulting handle
(bound to the target's tag, as gmsh's `Delete` semantics reuses it), and no
handle is referenced by any later instruction (boolean operation or
physical-volume tagging) after it has been consumed: the liveness check
passes for every parameter value. -/
theorem geo_template_liveness (p : ChamberParams) :
    livenessOk (geo_template p) = true := rfl

/-- C4 counterexample: with plate thickness `mesh_thk = 1` (all other
parameters at their defaults) the fixed-margin mesh slab `[mesh_x - 0.06,
mesh_x + 0.06]` does not contain the plate face planes `x = mesh_x ± 1/2`:
the claim fails for thicknesses above `0.12`. -/
theorem meshSlab_misses_thick_plate :
    meshSlabCoversPlate { defaultParams with mesh_thk := 1 } = false := by
  simp only [meshSlabCoversPlate, slabCoversPlane, meshBB, defaultParams]
  norm_num

/-- C4 (amended): for plate thickness `0 ≤ mesh_thk ≤ 0.12` the mesh
region's fixed-margin slab contains both plate face planes, and the slab
does not depend on `mesh_thk` at all. -/
theorem meshSlab_covers_thin_plate (p : ChamberParams)
    (h0 : 0 ≤ p.mesh_thk) (h : p.mesh_thk ≤ 3/25) :
    meshSlabCoversPlate p = true ∧
      ∀ t : ℚ, meshBB { p with mesh_thk := t } = meshBB p := by
  refine ⟨?_, fun t => rfl⟩
  simp only [meshSlabCoversPlate, slabCoversPlane, meshBB, Bool.and_eq_true,
    decide_eq_true_eq]
  refine ⟨⟨by linarith, by linarith⟩, by linarith, by linarith⟩

/-- C4 witness: the amended statement holds at the default parameters
(`mesh_thk = 0.11 ≤ 0.12`). -/
theorem meshSlab_covers_thin_plate_witness :
    meshSlabCoversPlate defaultParams = true ∧
      ∀ t : ℚ, meshBB { defaultParams with mesh_thk := t } = meshBB defaultParams :=
  meshSlab_covers_thin_plate defaultParams (by norm_num [defaultParams])
    (by norm_num [defaultParams])

/-! ## Classifier region order and bounding-box volumes (C6, C7) -/

/-- C6 counterexample: it is not the case that each of the four emitted
regions has a positive-volume bounding box: the fourth region, `walls`, is
the wildcard selector `Surface "*"` and has no bounding box at all. -/
theorem classify_not_four_posVol_boxes :
    ((classify defaultParams).all (fun r => r.2.hasPosBBox)) = false := by
  simp [classify, SurfaceSel.hasPosBBox]

/-- C6 (amended): for every parameter value with positive cross-section
extents, the classifier emits its regions in the declaration order inlet,
outlet, mesh, walls; the three bounding-box regions (inlet, outlet, mesh)
each have strictly positive volume; and the `walls` selector — a wildcard
with no bounding box — comes last, after inlet, outlet and mesh. -/
theorem classify_order_and_volumes (p : ChamberParams)
    (hly : 0 < p.ly) (hlz : 0 < p.lz) :
    (classify p).map Prod.fst = ["inlet", "outlet", "mesh", "walls"] ∧
      inletBB.posVol = true ∧ outletBB.posVol = true ∧ (meshBB p).posVol = true ∧
      (classify p).getLast? = some ("walls", .allSurfaces) := by
  refine ⟨rfl, by norm_num [BBox.posVol, inletBB], by norm_num [BBox.posVol, outletBB],
    ?_, rfl⟩
  simp only [BBox.posVol, meshBB, Bool.and_eq_true, decide_eq_true_eq]
  refine ⟨by linarith, by linarith, by linarith⟩

/-- C6 witness: the amended statement holds at the default parameters. -/
theorem classify_order_and_volumes_witness :
    (classify defaultParams).map Prod.fst = ["inlet", "outlet", "mesh", "walls"] ∧
      inletBB.posVol = true ∧ outletBB.posVol = true ∧
      (meshBB defaultParams).posVol = true ∧
      (classify defaultParams).getLast? = some ("walls", .allSurfaces) :=
  classify_order_and_volumes defaultParams (by norm_num [defaultParams])
    (by norm_num [defaultParams])

/-- C7: with the default parameters the inlet bounding box contains the
point `(4, 10, 20)`, the outlet bounding box contains the point
`(26, 10, 18)`, and the mesh bounding box straddles the plane `x = 10` with
a margin of at least `0.06` on each side. -/
theorem default_region_probe_points :
    inletBB.contains (4, 10, 20) = true ∧
      outletBB.contains (26, 10, 18) = true ∧
      (meshBB defaultParams).xmin ≤ 10 - 6/100 ∧
      10 + 6/100 ≤ (meshBB defaultParams).xmax := by
  norm_num [BBox.contains, inletBB, outletBB, meshBB, defaultParams]

/-! ## Plate tessellation faces (C2) -/

/-- C2 evaluation at the default plate input `(mesh_x, mesh_thk, ly, lz) =
(10, 0.11, 20, 20)`: the two emitted quadrilaterals are the plate box's
`z = 0` and `z = lz` faces — the first face lies entirely in the plane
`z = 0` yet in neither thickness-direction plane `x = 10 ± 0.055`
(it contains vertices with both x-coordinates), contradicting the claim
that the two emitted faces are the thickness-direction faces. -/
theorem plateFaces_default_are_z_faces :
    (plateFaces 10 0.11 20 20).length = 2 ∧
      ((plateFaces 10 0.11 20 20).getD 0 []).all (fun v => v.2.2 = 0) = true ∧
      ((plateFaces 10 0.11 20 20).getD 1 []).all (fun v => v.2.2 = 20) = true ∧
      ((plateFaces 10 0.11 20 20).getD 0 []).all (fun v => v.1 = 10 - 0.11/2) = false ∧
      ((plateFaces 10 0.11 20 20).getD 0 []).all (fun v => v.1 = 10 + 0.11/2) = false := by
  norm_num [plateFaces, plateCorners]

end CfdPlayground

namespace CfdPlayground

/-! ## Vector algebra helper lemmas -/

/-- Squared norm, expanded. -/
theorem normSq_expand (a : Vec3 ℝ) : normSq a = a.x ^ 2 + a.y ^ 2 + a.z ^ 2 := by
  simp only [normSq, dot]; ring

/-- The squared norm is nonnegative. -/
theorem normSq_nonneg (a : Vec3 ℝ) : 0 ≤ normSq a := by
  rw [normSq_expand]; positivity

/-- The dot product is symmetric. -/
theorem dot_comm (a b : Vec3 ℝ) : dot a b = dot b a := by
  simp only [dot]; ring

/-- A cross product is orthogonal to its first factor. -/
theorem dot_cross_left (a b : Vec3 ℝ) : dot (cross a b) a = 0 := by
  simp only [cross, dot]; ring

/-- A cross product is orthogonal to its second factor. -/
theorem dot_cross_right (a b : Vec3 ℝ) : dot (cross a b) b = 0 := by
  simp only [cross, dot]; ring

/-- Lagrange identity for the squared norm of a cross product. -/
theorem normSq_cross (a b : Vec3 ℝ) :
    normSq (cross a b) = normSq a * normSq b - dot a b ^ 2 := by
  simp only [cross, normSq, dot]; ring

/-- Squared norm of a scalar division. -/
theorem normSq_vdiv (a : Vec3 ℝ) (s : ℝ) : normSq (vdiv a s) = normSq a / s ^ 2 := by
  simp only [vdiv, normSq, dot]; ring

/-- Dot product after dividing the left argument by a scalar. -/
theorem dot_vdiv_left (a b : Vec3 ℝ) (s : ℝ) : dot (vdiv a s) b = dot a b / s := by
  simp only [vdiv, dot]; ring

/-- Normalizing a vector of nonzero norm yields a unit vector. -/
theorem normSq_normalize (a : Vec3 ℝ) (ha : normSq a ≠ 0) :
    normSq (vdiv a (vnorm a)) = 1 := by
  rw [normSq_vdiv, vnorm, Real.sq_sqrt (normSq_nonneg a), div_self ha]

/-- The norm of a vector of nonzero squared norm is nonzero. -/
theorem vnorm_ne_zero (a : Vec3 ℝ) (ha : normSq a ≠ 0) : vnorm a ≠ 0 :=
  ne_of_gt (Real.sqrt_pos.mpr (lt_of_le_of_ne (normSq_nonneg a) (Ne.symm ha)))

/-- The degeneracy guard works: on a unit axis the selected reference vector
has squared norm above `0.0199` (hence norm above `0.141`), in both
branches. -/
theorem perpRef_normSq_lower (z : Vec3 ℝ) (hz : normSq z = 1) :
    (199 / 10000 : ℝ) < normSq (perpRef z) := by
  rw [normSq_expand] at hz
  unfold perpRef
  split_ifs with h
  · rw [normSq_expand]
    simp only [cross]
    have h1 := abs_lt.mp h
    nlinarith [h1.1, h1.2]
  · rw [normSq_expand]
    simp only [cross]
    have h3 : (0.99 : ℝ) ≤ |z.z| := le_of_not_lt h
    have h2 : (0.99 : ℝ) ^ 2 ≤ z.z ^ 2 := by
      nlinarith [sq_abs z.z, abs_nonneg z.z]
    nlinarith [sq_nonneg z.x, sq_nonneg z.y]

/-- The selected reference vector is orthogonal to the axis. -/
theorem perpRef_dot (z : Vec3 ℝ) : dot (perpRef z) z = 0 := by
  unfold perpRef
  split_ifs <;> · simp only [cross, dot]; ring

end CfdPlayground

namespace CfdPlayground

/-- The frame at the example axis `(0,0,1)`: the guard takes the secondary
branch and the frame is the standard basis permuted, `x = (1,0,0)`,
`y = (0,1,0)`, `z = (0,0,1)`. -/
theorem cylFrame_example :
    cylFrame (⟨0, 0, 1⟩ : Vec3 ℝ) = (⟨1, 0, 0⟩, ⟨0, 1, 0⟩, ⟨0, 0, 1⟩) := by
  have h1 : vnorm (⟨0, 0, 1⟩ : Vec3 ℝ) = 1 := by
    rw [vnorm, show normSq (⟨0, 0, 1⟩ : Vec3 ℝ) = 1 by rw [normSq_expand]; norm_num]
    exact Real.sqrt_one
  have hz : vdiv (⟨0, 0, 1⟩ : Vec3 ℝ) (vnorm ⟨0, 0, 1⟩) = ⟨0, 0, 1⟩ := by
    rw [h1]; simp [vdiv]
  have hp : perpRef (⟨0, 0, 1⟩ : Vec3 ℝ) = ⟨1, 0, 0⟩ := by
    rw [perpRef, show (⟨0, 0, 1⟩ : Vec3 ℝ).z = 1 from rfl, if_neg (by norm_num)]
    simp [cross]
  have hp1 : vnorm (⟨1, 0, 0⟩ : Vec3 ℝ) = 1 := by
    rw [vnorm, show normSq (⟨1, 0, 0⟩ : Vec3 ℝ) = 1 by rw [normSq_expand]; norm_num]
    exact Real.sqrt_one
  show (_, _, _) = _
  rw [hz, hp, hp1]
  simp [vdiv, cross]

end CfdPlayground

namespace CfdPlayground

/-- C5 counterexample: the claim's nearly-parallel test `|axis dot up| > 0.99`
does not match the code's branch condition `abs(z[2]) < 0.99` at the boundary:
for the unit axis `(sqrt(0.0199), 0, 0.99)` (with `|z_3| = 0.99` exactly) the
code takes the secondary-axis branch while the claim's rule selects the
world-up branch, and the two reference vectors differ. -/
theorem perpRef_ne_claimRefVec_at_boundary :
    normSq (⟨Real.sqrt (199 / 10000), 0, 0.99⟩ : Vec3 ℝ) = 1 ∧
      perpRef (⟨Real.sqrt (199 / 10000), 0, 0.99⟩ : Vec3 ℝ) ≠
        claimRefVec (⟨Real.sqrt (199 / 10000), 0, 0.99⟩ : Vec3 ℝ) := by
  have hs : Real.sqrt (199 / 10000) ^ 2 = 199 / 10000 :=
    Real.sq_sqrt (by norm_num)
  constructor
  · rw [normSq_expand]
    show Real.sqrt (199 / 10000) ^ 2 + (0 : ℝ) ^ 2 + (0.99 : ℝ) ^ 2 = 1
    rw [hs]; norm_num
  · rw [perpRef, claimRefVec,
      show (⟨Real.sqrt (199 / 10000), 0, 0.99⟩ : Vec3 ℝ).z = 0.99 from rfl,
      show dot (⟨Real.sqrt (199 / 10000), 0, 0.99⟩ : Vec3 ℝ) ⟨0, 0, 1⟩ = 0.99 by
        simp only [dot]; norm_num,
      if_neg (by rw [show |(0.99 : ℝ)| = 0.99 from abs_of_pos (by norm_num)]; norm_num),
      if_neg (by rw [show |(0.99 : ℝ)| = 0.99 from abs_of_pos (by norm_num)]; norm_num)]
    simp only [cross, Vec3.mk.injEq, not_and]
    intro h
    norm_num at h

end CfdPlayground

namespace CfdPlayground

/-- C5 (amended): the first in-plane reference vector is obtained by crossing
world-up `(0,0,1)` with the normalized axis whenever `|axis dot up| < 0.99`,
and by crossing the secondary world axis `(0,1,0)` with it when
`|axis dot up| >= 0.99` (the code's guard is inclusive at the boundary);
under this guard the vector that is subsequently normalized has squared norm
above `0.0199` (never near zero, so no division by a near-zero length); and
for every axis of nonzero norm the resulting three vectors `(x, y, z)` form
an orthonormal frame — in particular for the axis `(0,0,1)` the frame is
`x = (1,0,0)`, `y = (0,1,0)`, `z = (0,0,1)`. -/
theorem cylFrame_guard_and_orthonormal (v : Vec3 ℝ) (hv : normSq v ≠ 0) :
    (∀ w : Vec3 ℝ, perpRef w =
        if (0.99 : ℝ) ≤ |dot w ⟨0, 0, 1⟩| then cross ⟨0, 1, 0⟩ w
        else cross ⟨0, 0, 1⟩ w) ∧
      (199 / 10000 : ℝ) < normSq (perpRef (vdiv v (vnorm v))) ∧
      normSq (cylFrame v).1 = 1 ∧
      normSq (cylFrame v).2.1 = 1 ∧
      normSq (cylFrame v).2.2 = 1 ∧
      dot (cylFrame v).1 (cylFrame v).2.1 = 0 ∧
      dot (cylFrame v).1 (cylFrame v).2.2 = 0 ∧
      dot (cylFrame v).2.1 (cylFrame v).2.2 = 0 ∧
      cylFrame (⟨0, 0, 1⟩ : Vec3 ℝ) = (⟨1, 0, 0⟩, ⟨0, 1, 0⟩, ⟨0, 0, 1⟩) := by
  have hz1 : normSq (vdiv v (vnorm v)) = 1 := normSq_normalize v hv
  have hbound := perpRef_normSq_lower _ hz1
  have hx0 : normSq (perpRef (vdiv v (vnorm v))) ≠ 0 :=
    ne_of_gt (lt_trans (by norm_num) hbound)
  have hX := normSq_normalize _ hx0
  have hXZ : dot (vdiv (perpRef (vdiv v (vnorm v))) (vnorm (perpRef (vdiv v (vnorm v)))))
      (vdiv v (vnorm v)) = 0 := by
    rw [dot_vdiv_left, perpRef_dot, zero_div]
  have hcf : cylFrame v =
      (vdiv (perpRef (vdiv v (vnorm v))) (vnorm (perpRef (vdiv v (vnorm v)))),
       cross (vdiv v (vnorm v))
         (vdiv (perpRef (vdiv v (vnorm v))) (vnorm (perpRef (vdiv v (vnorm v))))),
       vdiv v (vnorm v)) := rfl
  refine ⟨?_, hbound, ?_, ?_, ?_, ?_, ?_, ?_, cylFrame_example⟩
  · intro w
    rw [perpRef, show dot w ⟨0, 0, 1⟩ = w.z by simp only [dot]; ring]
    by_cases h : |w.z| < 0.99
    · rw [if_pos h, if_neg (not_le.mpr h)]
    · rw [if_neg h, if_pos (le_of_not_lt h)]
  · rw [hcf]; exact hX
  · rw [hcf]
    show normSq (cross _ _) = 1
    rw [normSq_cross, hz1, hX, dot_comm, hXZ]; norm_num
  · rw [hcf]; exact hz1
  · rw [hcf]
    show dot _ (cross _ _) = 0
    rw [dot_comm]; exact dot_cross_right _ _
  · rw [hcf]; exact hXZ
  · rw [hcf]
    show dot (cross _ _) _ = 0
    exact dot_cross_left _ _

/-- C5 witness: the amended statement holds at the concrete axis `(0,0,1)`,
whose squared norm is nonzero. -/
theorem cylFrame_guard_and_orthonormal_witness :
    (∀ w : Vec3 ℝ, perpRef w =
        if (0.99 : ℝ) ≤ |dot w ⟨0, 0, 1⟩| then cross ⟨0, 1, 0⟩ w
        else cross ⟨0, 0, 1⟩ w) ∧
      (199 / 10000 : ℝ) <
        normSq (perpRef (vdiv (⟨0, 0, 1⟩ : Vec3 ℝ) (vnorm ⟨0, 0, 1⟩))) ∧
      normSq (cylFrame (⟨0, 0, 1⟩ : Vec3 ℝ)).1 = 1 ∧
      normSq (cylFrame (⟨0, 0, 1⟩ : Vec3 ℝ)).2.1 = 1 ∧
      normSq (cylFrame (⟨0, 0, 1⟩ : Vec3 ℝ)).2.2 = 1 ∧
      dot (cylFrame (⟨0, 0, 1⟩ : Vec3 ℝ)).1 (cylFrame (⟨0, 0, 1⟩ : Vec3 ℝ)).2.1 = 0 ∧
      dot (cylFrame (⟨0, 0, 1⟩ : Vec3 ℝ)).1 (cylFrame (⟨0, 0, 1⟩ : Vec3 ℝ)).2.2 = 0 ∧
      dot (cylFrame (⟨0, 0, 1⟩ : Vec3 ℝ)).2.1 (cylFrame (⟨0, 0, 1⟩ : Vec3 ℝ)).2.2 = 0 ∧
      cylFrame (⟨0, 0, 1⟩ : Vec3 ℝ) = (⟨1, 0, 0⟩, ⟨0, 1, 0⟩, ⟨0, 0, 1⟩) :=
  cylFrame_guard_and_orthonormal ⟨0, 0, 1⟩
    (by rw [normSq_expand]; norm_num)

end CfdPlayground

namespace CfdPlayground

/-! ## Float-value computation lemmas -/

/-- Division of finite values by a nonzero finite value is finite. -/
theorem fdiv_num (u v : ℝ) (hv : v ≠ 0) :
    FVal.num u / FVal.num v = FVal.num (u / v) := by
  show (if v = 0 then FVal.nonfin else FVal.num (u / v)) = FVal.num (u / v)
  rw [if_neg hv]

/-- Division by finite zero is non-finite (`0/0` is NaN). -/
theorem fdiv_num_zero (u : ℝ) : FVal.num u / FVal.num 0 = FVal.nonfin := by
  show (if (0 : ℝ) = 0 then FVal.nonfin else FVal.num (u / 0)) = FVal.nonfin
  rw [if_pos rfl]

/-- The norm of an embedded real vector is its real norm (finite). -/
theorem fnorm_vmap (a : Vec3 ℝ) : fnorm (vmap a) = FVal.num (vnorm a) := by
  rw [fnorm, show normSq (vmap a) = FVal.num (normSq a) from rfl]
  show (if normSq a < 0 then FVal.nonfin else FVal.num (Real.sqrt (normSq a))) = _
  rw [if_neg (not_lt.mpr (normSq_nonneg a)), vnorm]

/-- Scalar division of an embedded vector by a nonzero finite scalar. -/
theorem vdiv_vmap (a : Vec3 ℝ) {s : ℝ} (hs : s ≠ 0) :
    vdiv (vmap a) (FVal.num s) = vmap (vdiv a s) := by
  show Vec3.mk (FVal.num a.x / FVal.num s) (FVal.num a.y / FVal.num s)
      (FVal.num a.z / FVal.num s) = _
  rw [fdiv_num a.x s hs, fdiv_num a.y s hs, fdiv_num a.z s hs]
  rfl

/-- Axis normalization of an embedded nonzero vector stays finite and
matches the real normalization. -/
theorem cylZ_vmap (v : Vec3 ℝ) (hv : normSq v ≠ 0) :
    cylZ (vmap v) = vmap (vdiv v (vnorm v)) := by
  rw [cylZ, fnorm_vmap, vdiv_vmap v (vnorm_ne_zero v hv)]

/-- The guard branch taken over float values matches `perpRef` over the
embedded reals. -/
theorem cylX0_vmap (z : Vec3 ℝ) : cylX0 (vmap z) = vmap (perpRef z) := by
  rw [cylX0, perpRef,
    show fabs (vmap z).z = FVal.num |z.z| from rfl,
    show fltB (FVal.num |z.z|) (FVal.num 0.99) = decide (|z.z| < 0.99) from rfl]
  by_cases h : |z.z| < 0.99
  · rw [if_pos (by simp [h]), if_pos h]; rfl
  · rw [if_neg (by simp [h]), if_neg h]; rfl

/-- The normalized in-plane vector over float values matches the reals. -/
theorem cylX_vmap (z : Vec3 ℝ) (hz : normSq z = 1) :
    cylX (vmap z) = vmap (vdiv (perpRef z) (vnorm (perpRef z))) := by
  have hx0 : normSq (perpRef z) ≠ 0 :=
    ne_of_gt (lt_trans (by norm_num) (perpRef_normSq_lower z hz))
  rw [cylX, cylX0_vmap, fnorm_vmap, vdiv_vmap _ (vnorm_ne_zero _ hx0)]

/-- The third frame vector over float values matches the reals. -/
theorem cylY_vmap (z : Vec3 ℝ) (hz : normSq z = 1) :
    cylY (vmap z) = vmap (cross z (vdiv (perpRef z) (vnorm (perpRef z)))) := by
  rw [cylY, cylX_vmap z hz]; rfl

/-- Every base-ring vertex of a tessellation with finite inputs and a
nonzero axis is the embedding of a real vertex. -/
theorem cylC0_vmap (b v : Vec3 ℝ) (r : ℝ) (n i : ℕ) (hv : normSq v ≠ 0) :
    ∃ w : Vec3 ℝ, cylC0 (vmap b) (vmap v) (FVal.num r) n i = vmap w := by
  have hz1 : normSq (vdiv v (vnorm v)) = 1 := normSq_normalize v hv
  refine ⟨vadd b (smul r
      (vadd (smul (Real.cos (2 * Real.pi * i / n))
              (vdiv (perpRef (vdiv v (vnorm v))) (vnorm (perpRef (vdiv v (vnorm v))))))
            (smul (Real.sin (2 * Real.pi * i / n))
              (cross (vdiv v (vnorm v))
                (vdiv (perpRef (vdiv v (vnorm v)))
                  (vnorm (perpRef (vdiv v (vnorm v))))))))), ?_⟩
  rw [cylC0, cylZ_vmap v hv, cylX_vmap _ hz1, cylY_vmap _ hz1]
  rfl

/-- Every top-ring vertex of a tessellation with finite inputs and a
nonzero axis is the embedding of a real vertex. -/
theorem cylC1_vmap (b v : Vec3 ℝ) (r : ℝ) (n i : ℕ) (hv : normSq v ≠ 0) :
    ∃ w : Vec3 ℝ, cylC1 (vmap b) (vmap v) (FVal.num r) n i = vmap w := by
  obtain ⟨w, hw⟩ := cylC0_vmap b v r n i hv
  exact ⟨vadd w v, by rw [cylC1, hw]; rfl⟩

/-- With the zero axis the normalized axis is non-finite in every
component: the norm is `sqrt 0 = 0` and `0/0` is NaN. -/
theorem cylZ_zero :
    cylZ (vmap ⟨0, 0, 0⟩) = ⟨FVal.nonfin, FVal.nonfin, FVal.nonfin⟩ := by
  rw [cylZ]
  have h1 : fnorm (vmap ⟨0, 0, 0⟩) = FVal.num 0 := by
    rw [fnorm_vmap, vnorm,
      show normSq (⟨0, 0, 0⟩ : Vec3 ℝ) = 0 by rw [normSq_expand]; norm_num,
      Real.sqrt_zero]
  rw [h1]
  show Vec3.mk (FVal.num 0 / FVal.num 0) (FVal.num 0 / FVal.num 0)
      (FVal.num 0 / FVal.num 0) = _
  rw [fdiv_num_zero 0]

/-- With the zero axis every base-ring vertex coordinate is non-finite:
the NaNs of the frame propagate through the vertex formula. -/
theorem cylC0_zero (b : Vec3 ℝ) (r : ℝ) (n i : ℕ) :
    cylC0 (vmap b) (vmap ⟨0, 0, 0⟩) (FVal.num r) n i =
      ⟨FVal.nonfin, FVal.nonfin, FVal.nonfin⟩ := by
  rw [cylC0, cylZ_zero]
  rfl

/-- With the zero axis every top-ring vertex coordinate is non-finite. -/
theorem cylC1_zero (b : Vec3 ℝ) (r : ℝ) (n i : ℕ) :
    cylC1 (vmap b) (vmap ⟨0, 0, 0⟩) (FVal.num r) n i =
      ⟨FVal.nonfin, FVal.nonfin, FVal.nonfin⟩ := by
  rw [cylC1, cylC0_zero]
  rfl

end CfdPlayground

namespace CfdPlayground

/-- The squared norm vanishes exactly on the zero vector. -/
theorem normSq_eq_zero_iff (a : Vec3 ℝ) : normSq a = 0 ↔ a = ⟨0, 0, 0⟩ := by
  rw [normSq_expand]
  constructor
  · intro h
    have hx : a.x = 0 := by nlinarith [sq_nonneg a.x, sq_nonneg a.y, sq_nonneg a.z]
    have hy : a.y = 0 := by nlinarith [sq_nonneg a.x, sq_nonneg a.y, sq_nonneg a.z]
    have hz : a.z = 0 := by nlinarith [sq_nonneg a.x, sq_nonneg a.y, sq_nonneg a.z]
    cases a
    simp_all
  · intro h
    rw [h]
    norm_num

/-- C10: cylinder tessellation has the unstated precondition of a nonzero
axis: for finite base and radius and any nonzero axis every coordinate of
every returned vertex is finite, while for the zero axis vector the function
raises no error — it still returns its full list of `n = 48` faces — but
every vertex coordinate in them is non-finite (NaN), because the axis is
divided by its zero norm with no guard. -/
theorem cyl_faces_axis_precondition (b v : Vec3 ℝ) (r : ℝ) (n : ℕ)
    (hv : v ≠ ⟨0, 0, 0⟩) :
    facesFinite (cyl_faces (vmap b) (vmap v) (FVal.num r) n) = true ∧
      ∀ (b' : Vec3 ℝ) (r' : ℝ),
        (cyl_faces (vmap b') (vmap ⟨0, 0, 0⟩) (FVal.num r') 48).length = 48 ∧
        facesAllNonfin (cyl_faces (vmap b') (vmap ⟨0, 0, 0⟩) (FVal.num r') 48) = true := by
  have hnz : normSq v ≠ 0 := fun h => hv ((normSq_eq_zero_iff v).mp h)
  constructor
  · rw [facesFinite, List.all_eq_true]
    intro f hf
    rw [cyl_faces, List.mem_map] at hf
    obtain ⟨i, hi, rfl⟩ := hf
    rw [List.all_eq_true]
    intro p hp
    simp only [List.mem_cons, List.not_mem_nil, or_false] at hp
    rcases hp with rfl | rfl | rfl | rfl
    · obtain ⟨w, hw⟩ := cylC0_vmap b v r n i hnz
      rw [hw]; rfl
    · obtain ⟨w, hw⟩ := cylC0_vmap b v r n ((i + 1) % n) hnz
      rw [hw]; rfl
    · obtain ⟨w, hw⟩ := cylC1_vmap b v r n ((i + 1) % n) hnz
      rw [hw]; rfl
    · obtain ⟨w, hw⟩ := cylC1_vmap b v r n i hnz
      rw [hw]; rfl
  · intro b' r'
    constructor
    · rw [cyl_faces]
      simp
    · rw [facesAllNonfin, List.all_eq_true]
      intro f hf
      rw [cyl_faces, List.mem_map] at hf
      obtain ⟨i, hi, rfl⟩ := hf
      rw [List.all_eq_true]
      intro p hp
      simp only [List.mem_cons, List.not_mem_nil, or_false] at hp
      rcases hp with rfl | rfl | rfl | rfl
      · rw [cylC0_zero]; rfl
      · rw [cylC0_zero]; rfl
      · rw [cylC1_zero]; rfl
      · rw [cylC1_zero]; rfl

/-- C10 witness: the statement holds at the inlet-tube call of the script,
base `(4,10,2)`, axis `(0,0,18)` (nonzero), radius `3.175/2`, 48 segments. -/
theorem cyl_faces_axis_precondition_witness :
    facesFinite (cyl_faces (vmap ⟨4, 10, 2⟩) (vmap ⟨0, 0, 18⟩)
      (FVal.num (3.175 / 2)) 48) = true ∧
      ∀ (b' : Vec3 ℝ) (r' : ℝ),
        (cyl_faces (vmap b') (vmap ⟨0, 0, 0⟩) (FVal.num r') 48).length = 48 ∧
        facesAllNonfin (cyl_faces (vmap b') (vmap ⟨0, 0, 0⟩) (FVal.num r') 48) = true :=
  cyl_faces_axis_precondition ⟨4, 10, 2⟩ ⟨0, 0, 18⟩ (3.175 / 2) 48
    (by simp only [ne_eq, Vec3.mk.injEq, not_and]; intro _ _; norm_num)

end CfdPlayground

namespace CfdPlayground

/-! ## List maximum and L2-norm lemmas -/

/-- A max-fold stays below any common upper bound. -/
theorem foldl_max_le {c : ℝ} :
    ∀ (l : List ℝ) (a : ℝ), a ≤ c → (∀ b ∈ l, b ≤ c) → l.foldl max a ≤ c := by
  intro l
  induction l with
  | nil => intro a ha _; simpa using ha
  | cons b t ih =>
      intro a ha hall
      simp only [List.foldl_cons]
      exact ih (max a b) (max_le ha (hall b (List.mem_cons_self b t)))
        (fun y hy => hall y (List.mem_cons_of_mem b hy))

/-- The accumulator bounds a max-fold from below. -/
theorem le_foldl_max : ∀ (l : List ℝ) (a : ℝ), a ≤ l.foldl max a := by
  intro l
  induction l with
  | nil => intro a; simp
  | cons b t ih =>
      intro a
      simp only [List.foldl_cons]
      exact le_trans (le_max_left a b) (ih (max a b))

/-- Every member bounds a max-fold from below. -/
theorem mem_le_foldl_max : ∀ (l : List ℝ) (a b : ℝ), b ∈ l → b ≤ l.foldl max a := by
  intro l
  induction l with
  | nil => intro a b hb; cases hb
  | cons d t ih =>
      intro a b hb
      rcases List.mem_cons.mp hb with rfl | hb
      · exact le_trans (le_max_right a b) (le_foldl_max t (max a b))
      · exact ih (max a d) b hb

/-- The maximum of a list that contains `c` and is bounded by `c` is `c`. -/
theorem listMax_eq (l : List ℝ) (c : ℝ) (hmem : c ∈ l) (hall : ∀ a ∈ l, a ≤ c) :
    listMax l = c := by
  cases l with
  | nil => cases hmem
  | cons a t =>
      show t.foldl max a = c
      refine le_antisymm ?_ ?_
      · exact foldl_max_le t a (hall a (List.mem_cons_self a t))
          (fun y hy => hall y (List.mem_cons_of_mem a hy))
      · rcases List.mem_cons.mp hmem with rfl | hmem
        · exact le_foldl_max t c
        · exact mem_le_foldl_max t a c hmem

/-- Subtracting a list from itself elementwise gives zeros. -/
theorem zipWith_sub_self (l : List ℝ) :
    List.zipWith (fun a b => a - b) l l = l.map (fun _ => 0) := by
  induction l with
  | nil => rfl
  | cons a t ih => simp [ih]

/-- The L2 norm of an all-zero array is zero. -/
theorem l2norm_zero_map (l : List ℝ) : l2norm (l.map (fun _ => 0)) = 0 := by
  rw [l2norm]
  have h : ((l.map (fun _ => (0 : ℝ))).map (fun v => v ^ 2)).sum = 0 := by
    induction l with
    | nil => rfl
    | cons a t ih => simp [ih]
  rw [h, Real.sqrt_zero]

/-- The L2 norm of an array containing a positive entry is positive. -/
theorem l2norm_pos_of_mem (l : List ℝ) (c : ℝ) (hc : 0 < c) (hmem : c ∈ l) :
    0 < l2norm l := by
  rw [l2norm]
  apply Real.sqrt_pos.mpr
  have h1 : c ^ 2 ∈ l.map (fun v => v ^ 2) := List.mem_map_of_mem _ hmem
  have h2 : ∀ y ∈ l.map (fun v => v ^ 2), (0 : ℝ) ≤ y := by
    intro y hy
    obtain ⟨w, _, rfl⟩ := List.mem_map.mp hy
    positivity
  have h3 := List.single_le_sum h2 _ h1
  nlinarith

/-- C8: for a numerical sample array that is exactly the analytic parabola
scaled by a constant `c > 0` attained at some sample, the comparison formula
`u_analytic = max(u_num) * (1 - (x/5)^2)`,
`err = norm(u_num - u_analytic)/norm(u_analytic)` evaluates to exactly `0`
(and its denominator is strictly positive, so the zero is a genuine
quotient, not a division by zero). -/
theorem relErr_exact_scaled_parabola (x : List ℝ) (c : ℝ) (hc : 0 < c)
    (hatt : ∃ xi ∈ x, c * (1 - (xi / 5) ^ 2) = c) :
    relErr x (x.map (fun xi => c * (1 - (xi / 5) ^ 2))) = 0 ∧
      0 < l2norm (u_analytic x (x.map (fun xi => c * (1 - (xi / 5) ^ 2)))) := by
  have hcin : c ∈ x.map (fun xi => c * (1 - (xi / 5) ^ 2)) := by
    obtain ⟨xi, hxi, hvi⟩ := hatt
    exact List.mem_map.mpr ⟨xi, hxi, hvi⟩
  have hmax : listMax (x.map (fun xi => c * (1 - (xi / 5) ^ 2))) = c := by
    apply listMax_eq _ _ hcin
    intro a ha
    obtain ⟨xi, _, rfl⟩ := List.mem_map.mp ha
    nlinarith [sq_nonneg (xi / 5)]
  have hua : u_analytic x (x.map (fun xi => c * (1 - (xi / 5) ^ 2))) =
      x.map (fun xi => c * (1 - (xi / 5) ^ 2)) := by
    rw [u_analytic, hmax]
  refine ⟨?_, ?_⟩
  · rw [relErr, hua, zipWith_sub_self, l2norm_zero_map, zero_div]
  · rw [hua]
    exact l2norm_pos_of_mem _ c hc hcin

/-- C8 witness: the probe abscissae `[0, 5]` with scale `c = 1`. -/
theorem relErr_exact_scaled_parabola_witness :
    relErr [0, 5] ([0, 5].map (fun xi => 1 * (1 - (xi / 5) ^ 2))) = 0 ∧
      0 < l2norm (u_analytic [0, 5]
        ([0, 5].map (fun xi => 1 * (1 - (xi / 5) ^ 2)))) :=
  relErr_exact_scaled_parabola [0, 5] 1 (by norm_num)
    ⟨0, by simp, by norm_num⟩

/-- C9: the analytic-comparison gate raises the assertion failure exactly
when the relative error fails the `err < 0.03` test, and completes exactly
when the test passes — a single strict threshold comparison with no retry
and no tolerance adjustment. -/
theorem velocityCheck_gate (err : ℝ) :
    (velocityCheck err = Except.ok () ↔ err < 0.03) ∧
      (velocityCheck err = Except.error "Velocity deviates >3% from Poiseuille" ↔
        ¬ err < 0.03) := by
  rw [velocityCheck]
  split_ifs with h <;> simp [h]

/-- C9 witness: an error of `4%` raises the assertion failure and an error
of `2%` completes without raising. -/
theorem velocityCheck_gate_witness :
    velocityCheck (1 / 25 : ℝ) = Except.error "Velocity deviates >3% from Poiseuille" ∧
      velocityCheck (1 / 50 : ℝ) = Except.ok () :=
  ⟨(velocityCheck_gate (1 / 25)).2.mpr (by norm_num),
   (velocityCheck_gate (1 / 50)).1.mpr (by norm_num)⟩

end CfdPlayground
